import Mathlib

/-!
Shallow embedding (in Lean 4) of the keys-manager key-lifecycle library:
the ECDSA signature codec, the AES-GCM at-rest encryptor, the JWKS
exporter and the key cache / rotation engine, together with theorems about
the behaviour of these functions.

Bytes are modelled as `List Nat` with each element `< 256` where it
matters; Go `string` is `String`, `time.Time`/`time.Duration` are `Int`,
`*T` pointer fields that can be nil are `Option T`.  External collaborators
(store, encryptor, crypto primitives, randomness, clock) are passed in as
explicit parameters, so each Go method becomes a pure function of its
inputs and the manager state.
-/

set_option maxRecDepth 8000

deriving instance DecidableEq for Except

namespace KeysManager

/-- Go `type Alg string`. -/
abbrev Alg := String

def AlgRS256 : Alg := "RS256"

def AlgES256 : Alg := "ES256"

def AlgEdDSA : Alg := "EdDSA"

/-! ## Byte-level helpers

`natBytes n` is `big.Int.Bytes()` for a non-negative integer: the minimal
big-endian byte encoding, empty for `0`.  `bytesToNat` is `SetBytes`. -/

def natBytesFuel : Nat → Nat → List Nat
  | 0, _ => []
  | fuel + 1, n => if n = 0 then [] else natBytesFuel fuel (n / 256) ++ [n % 256]

def natBytes (n : Nat) : List Nat :=
  natBytesFuel n n

def bytesToNat (bs : List Nat) : Nat :=
  bs.foldl (fun a b => a * 256 + b) 0

/-- Left-pad a byte string with zeros to width `w` (the two `copy` calls in
`DERToRawECDSA` place `rBytes`/`sBytes` right-aligned in a zeroed buffer). -/
def zeroPad (w : Nat) (bs : List Nat) : List Nat :=
  List.replicate (w - bs.length) 0 ++ bs

/-! ## ASN.1 / DER parsing, embedded from Go `encoding/asn1`
specialised to `ecdsaSignature{R, S *big.Int}` (a `SEQUENCE` of two
`INTEGER`s), as invoked by `DERToRawECDSA` via `asn1.Unmarshal`. -/

/-- Result of Go `parseTagAndLength`. -/
structure TagLen where
  cls : Nat
  compound : Bool
  tag : Nat
  length : Nat
deriving DecidableEq

/-- Go `parseBase128Int` (high-tag-number form), consuming from the front. -/
def parseBase128 : List Nat → Nat → Nat → Except String (Nat × List Nat)
  | [], _, _ => .error "truncated base 128 integer"
  | b :: rest, shifted, acc =>
    if shifted = 5 then .error "base 128 integer is too large"
    else if shifted = 0 ∧ b = 0x80 then .error "integer is not minimally encoded"
    else
      let acc1 := acc * 128 + (b &&& 0x7f)
      if b &&& 0x80 = 0 then
        if acc1 > 2147483647 then .error "base 128 integer is too large"
        else .ok (acc1, rest)
      else parseBase128 rest (shifted + 1) acc1

/-- Long-form length accumulation loop of Go `parseTagAndLength`, with its
DER checks (`length too large`, `superfluous leading zeros`,
`non-minimal length`). -/
def parseLenLong : List Nat → Nat → Nat → Except String (Nat × List Nat)
  | bs, 0, acc => if acc < 0x80 then .error "non-minimal length" else .ok (acc, bs)
  | [], _ + 1, _ => .error "truncated tag or length"
  | b :: rest, numBytes + 1, acc =>
    if acc ≥ 8388608 then .error "length too large"
    else
      let acc1 := acc * 256 + b
      if acc1 = 0 then .error "superfluous leading zeros in length"
      else parseLenLong rest numBytes acc1

/-- Go `parseTagAndLength`, consuming from the front of the byte list. -/
def parseTagAndLength (bs : List Nat) : Except String (TagLen × List Nat) :=
  match bs with
  | [] => .error "truncated tag or length"
  | b :: rest =>
    let cls := b >>> 6
    let compound := b &&& 0x20 == 0x20
    let tagRes : Except String (Nat × List Nat) :=
      if b &&& 0x1f = 0x1f then
        match parseBase128 rest 0 0 with
        | .error e => .error e
        | .ok (t, r) => if t < 0x1f then .error "non-minimal tag" else .ok (t, r)
      else .ok (b &&& 0x1f, rest)
    match tagRes with
    | .error e => .error e
    | .ok (tag, rest1) =>
      match rest1 with
      | [] => .error "truncated tag or length"
      | lb :: rest2 =>
        if lb &&& 0x80 = 0 then
          .ok ({ cls := cls, compound := compound, tag := tag, length := lb &&& 0x7f }, rest2)
        else if lb = 0x80 then .error "indefinite length found (not DER)"
        else
          match parseLenLong rest2 (lb &&& 0x7f) 0 with
          | .error e => .error e
          | .ok (len, rest3) =>
            .ok ({ cls := cls, compound := compound, tag := tag, length := len }, rest3)

/-- Go `checkInteger`: DER minimality checks on INTEGER contents. -/
def checkInteger (bs : List Nat) : Except String Unit :=
  match bs with
  | [] => .error "empty integer"
  | [_] => .ok ()
  | b0 :: b1 :: _ =>
    if (b0 = 0 ∧ b1 &&& 0x80 = 0) ∨ (b0 = 0xff ∧ b1 &&& 0x80 = 0x80) then
      .error "integer not minimally-encoded"
    else .ok ()

/-- Go `parseBigInt`: two's-complement big-endian signed integer. -/
def parseBigInt (bs : List Nat) : Except String Int :=
  match checkInteger bs with
  | .error e => .error e
  | .ok _ =>
    match bs with
    | [] => .error "empty integer"
    | b0 :: _ =>
      if b0 &&& 0x80 = 0x80 then
        .ok (-(Int.ofNat (bytesToNat (bs.map (fun b => 255 - b)) + 1)))
      else .ok (Int.ofNat (bytesToNat bs))

/-- One INTEGER field inside the sequence: Go `parseField` for a
`*big.Int` target (header, truncation check, tag match, `parseBigInt`). -/
def parseIntField (bs : List Nat) : Except String (Int × List Nat) :=
  match parseTagAndLength bs with
  | .error e => .error e
  | .ok (tl, rest) =>
    if rest.length < tl.length then .error "data truncated"
    else if ¬(tl.cls = 0 ∧ tl.tag = 2 ∧ tl.compound = false) then .error "tags don't match"
    else
      match parseBigInt (rest.take tl.length) with
      | .error e => .error e
      | .ok v => .ok (v, rest.drop tl.length)

/-- Go `asn1.Unmarshal(der, &ecdsaSignature{})`: a SEQUENCE holding two
INTEGERs.  Bytes inside the sequence after the two fields, and bytes after
the sequence, are ignored, as in Go. -/
def parseEcdsaSig (der : List Nat) : Except String (Int × Int) :=
  match parseTagAndLength der with
  | .error e => .error e
  | .ok (tl, rest) =>
    if rest.length < tl.length then .error "data truncated"
    else if ¬(tl.cls = 0 ∧ tl.tag = 16 ∧ tl.compound = true) then .error "tags don't match"
    else
      match parseIntField (rest.take tl.length) with
      | .error e => .error e
      | .ok (r, inner1) =>
        match parseIntField inner1 with
        | .error e => .error e
        | .ok (s, _) => .ok (r, s)

/-- The two error classes `DERToRawECDSA` can produce: a wrapped ASN.1
decode error (`asn1 unmarshal: %w`) or the size guard
(`R/S too large for alg %s`). -/
inductive DerError where
  | asn1 (msg : String)
  | tooLarge (alg : Alg)
deriving DecidableEq

def renderDerError : DerError → String
  | .asn1 msg => "asn1 unmarshal: " ++ msg
  | .tooLarge alg => "R/S too large for alg " ++ alg

/-- `DERToRawECDSA` from the source: unmarshal the DER signature, check
that the magnitudes of R and S fit in 32 bytes, and emit the 64-byte
left-zero-padded `R‖S` concatenation.  `big.Int.Bytes()` returns the bytes
of the absolute value, hence `Int.natAbs`. -/
def DERToRawECDSA (alg : Alg) (der : List Nat) : Except DerError (List Nat) :=
  match parseEcdsaSig der with
  | .error e => .error (.asn1 e)
  | .ok (r, s) =>
    let size := 32
    let rBytes := natBytes r.natAbs
    let sBytes := natBytes s.natAbs
    if rBytes.length > size ∨ sBytes.length > size then .error (.tooLarge alg)
    else .ok (zeroPad size rBytes ++ zeroPad size sBytes)

/-! ## DER encoder for `ecdsaSignature` (Go `asn1.Marshal` on two
non-negative `big.Int`s), used to state the well-formed-DER claims. -/

/-- DER length octets (short form below 0x80, otherwise minimal long form). -/
def derLen (n : Nat) : List Nat :=
  if n < 0x80 then [n] else (0x80 + (natBytes n).length) :: natBytes n

/-- Contents octets of a DER INTEGER for a non-negative value: minimal
big-endian bytes with a zero sign-padding byte when the top bit is set. -/
def intContents (n : Nat) : List Nat :=
  if n = 0 then [0]
  else if 0x80 ≤ (natBytes n).headI then 0 :: natBytes n else natBytes n

/-- A DER INTEGER for a non-negative value. -/
def derInt (n : Nat) : List Nat :=
  0x02 :: derLen (intContents n).length ++ intContents n

/-- `asn1.Marshal(ecdsaSignature{R, S})` for non-negative R and S. -/
def derEncodeSig (r s : Nat) : List Nat :=
  let body := derInt r ++ derInt s
  0x30 :: derLen body.length ++ body

/-! ## Data model (`types` file of the source) -/

/-- `EncryptedKey{Nonce, Ciphertext []byte}`. -/
structure EncryptedKey where
  nonce : List Nat
  ciphertext : List Nat
deriving DecidableEq

/-- `Key` record.  `ExpiresAt *time.Time` is an `Option`; the
`EncryptedKey` pointer is kept plain since no code path in the claims
distinguishes a nil pointer. -/
structure Key where
  kid : String
  alg : Alg
  isActive : Bool
  createdAt : Int
  expiresAt : Option Int
  encryptedKey : EncryptedKey
deriving DecidableEq

/-- Observable shape of a `crypto.PublicKey` value: the three concrete
kinds the library supports, plus an opaque `other` kind standing for any
other dynamic type (the `default` arm of type switches). -/
inductive PubKey where
  | rsa (n e : Nat)
  | ec (x y : Nat)
  | ed (pub : List Nat)
  | other (tag : Nat)
deriving DecidableEq

/-- A parsed `crypto.Signer` handle, modelled by its observable public
key (`priv.Public()`); signing itself is an external primitive supplied
as an oracle. -/
structure Priv where
  pub : PubKey
deriving DecidableEq

/-- `CachedKey{key *Key, priv crypto.Signer, pub crypto.PublicKey}`.  The
record pointer can be nil in Go, hence `Option Key`. -/
structure CachedKey where
  key : Option Key
  priv : Priv
  pub : PubKey
deriving DecidableEq

def defaultKey : Key :=
  { kid := "", alg := "", isActive := false, createdAt := 0, expiresAt := none
    encryptedKey := { nonce := [], ciphertext := [] } }

/-- Go pointer dereference `ck.key.<field>`: states built by `ReloadCache`
always carry a record, so the default is never observed there; a nil
dereference would panic in Go. -/
def keyOf (ck : CachedKey) : Key :=
  ck.key.getD defaultKey

/-! ## AES-GCM encryptor (`aesgcm_encryptor.go`)

The AES-GCM primitive itself (`cipher.NewGCM(aes)` with its `Seal` and
`Open`) is external; it is passed in as a `GCMPrims` record, and the AEAD
round-trip contract appears as a hypothesis where needed.
`aes.NewCipher` fails exactly when the key length is not 16/24/32, and
`cipher.NewGCM` never fails for an AES block. -/

structure GCMPrims where
  nonceSize : Nat
  sealGCM : List Nat → List Nat → List Nat → List Nat
  openGCM : List Nat → List Nat → List Nat → Option (List Nat)

def aesNewCipherOk (key : List Nat) : Bool :=
  key.length == 16 || key.length == 24 || key.length == 32

/-- `NewAESGCMEncryptor`: reject any master key that is not 32 bytes. -/
def NewAESGCMEncryptor (masterKey : List Nat) : Except String (List Nat) :=
  if masterKey.length ≠ 32 then
    .error ("master key must be 32 bytes, got " ++ toString masterKey.length)
  else .ok masterKey

/-- `AESGCMEncryptor.Encrypt`: fresh random nonce bytes come from the
`randBytes` stream (`io.ReadFull(rand.Reader, nonce)`), which fails if the
stream is short. -/
def AESGCMEncrypt (g : GCMPrims) (key randBytes privateKey : List Nat) :
    Except String EncryptedKey :=
  if ¬ aesNewCipherOk key then .error "cipher init"
  else if randBytes.length < g.nonceSize then .error "nonce"
  else
    let nonce := randBytes.take g.nonceSize
    .ok { nonce := nonce, ciphertext := g.sealGCM key nonce privateKey }

/-- `AESGCMEncryptor.Decrypt`. -/
def AESGCMDecrypt (g : GCMPrims) (key : List Nat) (enc : EncryptedKey) :
    Except String (List Nat) :=
  if ¬ aesNewCipherOk key then .error "cipher init"
  else if enc.nonce.length ≠ g.nonceSize then
    .error ("invalid nonce size: " ++ toString enc.nonce.length)
  else
    match g.openGCM key enc.nonce enc.ciphertext with
    | some p => .ok p
    | none => .error "decrypt"

/-! ## base64url and the JWKS exporter (`utils.go`, `jwks types`) -/

def b64Alphabet : List Char :=
  "ABCDEFGHIJKLMNOPQRSTUVWXYZabcdefghijklmnopqrstuvwxyz0123456789-_".toList

def b64Char (n : Nat) : Char :=
  b64Alphabet.getD n 'A'

/-- `base64.RawURLEncoding` (no padding) of a byte string. -/
def b64Chars : List Nat → List Char
  | [] => []
  | [b0] => [b64Char (b0 / 4), b64Char (b0 % 4 * 16)]
  | [b0, b1] => [b64Char (b0 / 4), b64Char (b0 % 4 * 16 + b1 / 16), b64Char (b1 % 16 * 4)]
  | b0 :: b1 :: b2 :: rest =>
    b64Char (b0 / 4) :: b64Char (b0 % 4 * 16 + b1 / 16) ::
      b64Char (b1 % 16 * 4 + b2 / 64) :: b64Char (b2 % 64) :: b64Chars rest

/-- `b64` from `utils.go`. -/
def b64 (bs : List Nat) : String :=
  String.mk (b64Chars bs)

/-- `b64big` from `utils.go`: base64url of `i.Bytes()`. -/
def b64big (i : Nat) : String :=
  b64 (natBytes i)

/-- The `JWK` entry; Go `omitempty` string fields are empty strings when
absent. -/
structure JWK where
  kty : String
  kid : String
  alg : String
  use : String
  n : String
  e : String
  crv : String
  x : String
  y : String
deriving DecidableEq

structure JWKS where
  keys : List JWK
deriving DecidableEq

/-- The switch body of `buildJWKS` for one cached key: `none` both for a
nil record pointer and for the `default:` arm (unknown key kind). -/
def jwkOf (ck : CachedKey) : Option JWK :=
  match ck.key with
  | none => none
  | some k =>
    match ck.pub with
    | .rsa n e =>
      some { kty := "RSA", kid := k.kid, alg := k.alg, use := "sig"
             n := b64big n, e := b64big e, crv := "", x := "", y := "" }
    | .ec x y =>
      some { kty := "EC", kid := k.kid, alg := k.alg, use := "sig"
             n := "", e := "", crv := "P-256", x := b64big x, y := b64big y }
    | .ed pub =>
      some { kty := "OKP", kid := k.kid, alg := k.alg, use := "sig"
             n := "", e := "", crv := "Ed25519", x := b64 pub, y := "" }
    | .other _ => none

/-- `buildJWKS(cache)`: iterate the cache (Go map iteration determinised
to list order), skipping entries without a record or with an unknown
public-key kind.  A nil `*CachedKey` map value is not representable here;
`ReloadCache` never stores one. -/
def buildJWKS (cache : List (String × CachedKey)) : JWKS :=
  { keys := cache.foldl (fun acc p =>
      match jwkOf p.2 with
      | some j => acc ++ [j]
      | none => acc) [] }

/-! ## Key cache & rotation engine (`KeyManager`)

Collaborators are explicit parameters: `StoreOps` is the `Store`
interface over an abstract store state `σ`, `CryptoEnv` bundles
`encryptor.Decrypt` and `parsePrivateKey` (both externally determined),
and per-call randomness/clock/policy values for `Rotate` travel in a
`RotateOracle`.  The two Go maps are association lists with
replace-or-append insertion, determinising Go's unspecified map
iteration order to list order. -/

structure StoreOps (σ : Type) where
  list : σ → Except String (List Key)
  rotate : σ → Key → Option Key → Except String σ

structure CryptoEnv where
  decrypt : EncryptedKey → Except String (List Nat)
  parse : List Nat → Except String Priv

structure KMState (σ : Type) where
  store : σ
  cache : List (String × CachedKey)
  active : List (String × CachedKey)
deriving DecidableEq

/-- Go map read `m[k]`. -/
def lookupA (m : List (String × CachedKey)) (k : String) : Option CachedKey :=
  (m.find? (fun p => p.1 == k)).map (fun p => p.2)

/-- Go map write `m[k] = v`: replace an existing binding, else append. -/
def insertA (m : List (String × CachedKey)) (k : String) (v : CachedKey) :
    List (String × CachedKey) :=
  if m.any (fun p => p.1 == k) then
    m.map (fun p => if p.1 == k then (k, v) else p)
  else m ++ [(k, v)]

/-- The record-processing loop of `ReloadCache`: decrypt, parse, build a
handle, insert into the fresh `newCache`/`newActive` maps; the first
failing record aborts the whole build. -/
def buildCaches (env : CryptoEnv) :
    List Key → List (String × CachedKey) → List (String × CachedKey) →
    Except String (List (String × CachedKey) × List (String × CachedKey))
  | [], c, a => .ok (c, a)
  | k :: rest, c, a =>
    match env.decrypt k.encryptedKey with
    | .error e => .error ("decrypt key " ++ k.kid ++ ": " ++ e)
    | .ok privBytes =>
      match env.parse privBytes with
      | .error e => .error ("parse key " ++ k.kid ++ ": " ++ e)
      | .ok priv =>
        let ck : CachedKey := { key := some k, priv := priv, pub := priv.pub }
        buildCaches env rest (insertA c k.kid ck)
          (if k.isActive then insertA a k.alg ck else a)

/-- `ReloadCache`: list all records, rebuild both maps from scratch, and
only on full success swap them in (the two assignments under the write
lock). -/
def ReloadCache (ops : StoreOps σ) (env : CryptoEnv) (s : KMState σ) :
    Except String (KMState σ) :=
  match ops.list s.store with
  | .error e => .error e
  | .ok keys =>
    match buildCaches env keys [] [] with
    | .error e => .error e
    | .ok (newCache, newActive) =>
      .ok { s with cache := newCache, active := newActive }

/-- Calling `km.ReloadCache()` as a statement: on error the receiver is
left exactly as it was (the method assigns the maps only after every
record succeeded). -/
def reloadCacheRun (ops : StoreOps σ) (env : CryptoEnv) (s : KMState σ) :
    Option String × KMState σ :=
  match ReloadCache ops env s with
  | .ok s1 => (none, s1)
  | .error e => (some e, s)

/-- State after the best-effort `_ = km.ReloadCache()` on a cache miss:
the error is discarded. -/
def afterMissReload (ops : StoreOps σ) (env : CryptoEnv) (s : KMState σ) : KMState σ :=
  (reloadCacheRun ops env s).2

/-- `activeKey`: read-through lookup in `active`, with one best-effort
reload and retry on a miss. -/
def activeKey (ops : StoreOps σ) (env : CryptoEnv) (alg : Alg) (s : KMState σ) :
    Option CachedKey × KMState σ :=
  match lookupA s.active alg with
  | some ck => (some ck, s)
  | none =>
    let s1 := afterMissReload ops env s
    (lookupA s1.active alg, s1)

/-- `keyByKID`: read-through lookup in `cache`, with one best-effort
reload and retry on a miss. -/
def keyByKID (ops : StoreOps σ) (env : CryptoEnv) (kid : String) (s : KMState σ) :
    Option CachedKey × KMState σ :=
  match lookupA s.cache kid with
  | some ck => (some ck, s)
  | none =>
    let s1 := afterMissReload ops env s
    (lookupA s1.cache kid, s1)

/-- `crypto.SignerOpts` as the library uses it: only the hash choice. -/
inductive HashKind where
  | sha256 : HashKind
  | hash0 : HashKind
deriving DecidableEq

/-- `signingOptions` from `utils.go`. -/
def signingOptions (alg : Alg) : Except String HashKind :=
  if alg = AlgRS256 ∨ alg = AlgES256 then .ok .sha256
  else if alg = AlgEdDSA then .ok .hash0
  else .error ("unsupported algorithm: " ++ alg)

/-- External primitives used by `Sign`: the SHA-256 hash and the
`crypto.Signer.Sign` call on the cached private key. -/
structure SignEnv where
  sha256 : List Nat → List Nat
  signRes : Priv → List Nat → Except String (List Nat)

/-- The digest step of `Sign` (`opts.HashFunc() != crypto.Hash(0)`). -/
def hashDigest (hk : HashKind) (se : SignEnv) (input : List Nat) : List Nat :=
  match hk with
  | .sha256 => se.sha256 input
  | .hash0 => input

/-- Body of `Sign` after the active key is resolved: build the signing
input from the key id, hash if required, sign, and for ES256 re-encode
the native DER signature through `DERToRawECDSA`. -/
def signGiven (se : SignEnv) (build : String → Except String (List Nat))
    (alg : Alg) (ck : CachedKey) : Except String (List Nat) :=
  match build (keyOf ck).kid with
  | .error e => .error e
  | .ok signingInput =>
    match signingOptions alg with
    | .error e => .error e
    | .ok opts =>
      let digest := hashDigest opts se signingInput
      match se.signRes ck.priv digest with
      | .error e => .error e
      | .ok sig =>
        if alg ≠ AlgES256 then .ok sig
        else
          match DERToRawECDSA alg sig with
          | .error e => .error ("ecdsa convert: " ++ renderDerError e)
          | .ok rawSig => .ok rawSig

/-- `KeyManager.Sign`. -/
def Sign (ops : StoreOps σ) (env : CryptoEnv) (se : SignEnv)
    (build : String → Except String (List Nat)) (alg : Alg) (s : KMState σ) :
    Except String (List Nat) × KMState σ :=
  match activeKey ops env alg s with
  | (none, s1) => (.error ("no active key for alg " ++ alg), s1)
  | (some ck, s1) => (signGiven se build alg ck, s1)

/-- External verification primitives used by `verifySignature`. -/
structure VerifyEnv where
  sha256 : List Nat → List Nat
  rsaVerify : Nat → Nat → List Nat → List Nat → Bool
  ecdsaVerify : Nat → Nat → List Nat → Nat → Nat → Bool
  edVerify : List Nat → List Nat → List Nat → Bool

/-- `verifySignature` from `utils.go`: per-algorithm key-type check,
hashing, and dispatch; ES256 splits an even-length raw signature at the
midpoint into R and S. -/
def verifySignature (ve : VerifyEnv) (alg : Alg) (pub : PubKey)
    (payload sig : List Nat) : Except String Unit :=
  if alg = AlgRS256 then
    match pub with
    | .rsa n e =>
      let digest := ve.sha256 payload
      if ve.rsaVerify n e digest sig then .ok ()
      else .error "verify: rsa signature invalid"
    | _ => .error "verify: public key is not RSA"
  else if alg = AlgES256 then
    match pub with
    | .ec x y =>
      let digest := ve.sha256 payload
      if sig.length % 2 ≠ 0 then .error "verify: invalid ECDSA signature length"
      else
        let half := sig.length / 2
        let r := bytesToNat (sig.take half)
        let s := bytesToNat (sig.drop half)
        if ve.ecdsaVerify x y digest r s then .ok ()
        else .error "verify: ecdsa signature invalid"
    | _ => .error "verify: public key is not ECDSA"
  else if alg = AlgEdDSA then
    match pub with
    | .ed pubBytes =>
      if ve.edVerify pubBytes payload sig then .ok ()
      else .error "verify: eddsa signature invalid"
    | _ => .error "verify: public key is not Ed25519"
  else .error ("verify: unsupported alg " ++ alg)

/-- `KeyManager.Verify`. -/
def Verify (ops : StoreOps σ) (env : CryptoEnv) (ve : VerifyEnv)
    (kid : String) (payload sig : List Nat) (s : KMState σ) :
    Except String Unit × KMState σ :=
  match keyByKID ops env kid s with
  | (none, s1) => (.error ("key " ++ kid ++ " not found"), s1)
  | (some ck, s1) => (verifySignature ve (keyOf ck).alg ck.pub payload sig, s1)

/-- `RotationConfig{TTL time.Duration}`. -/
structure RotationConfig where
  ttl : Int
deriving DecidableEq

/-- Per-call external inputs of one `Rotate` invocation: the policy
result, key generation, PKCS#8 marshalling, encryption, `time.Now()` and
`generateKID(alg)`. -/
structure RotateOracle where
  policyRes : Except String RotationConfig
  genRes : Except String Priv
  marshalRes : Priv → Except String (List Nat)
  encryptRes : List Nat → Except String EncryptedKey
  now : Int
  newKid : String

/-- The "old" record preparation in `Rotate`: first listed record for the
algorithm that is active, cloned with `IsActive` flipped off. -/
def rotateFindOld (keys : List Key) (alg : Alg) : Option Key :=
  (keys.find? (fun k => k.alg == alg && k.isActive)).map
    (fun k => { k with isActive := false })

/-- The fresh record `Rotate` constructs. -/
def rotateNewKey (alg : Alg) (cfg : RotationConfig) (o : RotateOracle)
    (encrypted : EncryptedKey) : Key :=
  { kid := o.newKid, alg := alg, isActive := true, createdAt := o.now
    expiresAt := some (o.now + cfg.ttl), encryptedKey := encrypted }

/-- `KeyManager.Rotate`, with the receiver state threaded through every
failure point: failures before `store.Rotate` leave everything unchanged;
a reload failure after a successful `store.Rotate` leaves the caches
unchanged but the store already rotated. -/
def Rotate (ops : StoreOps σ) (env : CryptoEnv) (o : RotateOracle)
    (alg : Alg) (s : KMState σ) : Option String × KMState σ :=
  match o.policyRes with
  | .error e => (some e, s)
  | .ok policy =>
    match ops.list s.store with
    | .error e => (some e, s)
    | .ok keys =>
      let oldKey := rotateFindOld keys alg
      match o.genRes with
      | .error e => (some e, s)
      | .ok newPriv =>
        match o.marshalRes newPriv with
        | .error e => (some e, s)
        | .ok privBytes =>
          match o.encryptRes privBytes with
          | .error e => (some e, s)
          | .ok encrypted =>
            let newKey := rotateNewKey alg policy o encrypted
            match ops.rotate s.store newKey oldKey with
            | .error e => (some e, s)
            | .ok store1 =>
              let s1 : KMState σ := { s with store := store1 }
              reloadCacheRun ops env s1

/-- `KeyManager.InitKeys`, instrumented with a ghost trace of the
algorithms for which a rotation was actually attempted.  The oracle
stream supplies one `RotateOracle` per attempted rotation. -/
def InitKeysT (ops : StoreOps σ) (env : CryptoEnv) (oracles : Nat → RotateOracle) :
    List Alg → KMState σ → Nat → Except String (KMState σ) × List Alg
  | [], s, _ => (.ok s, [])
  | alg :: rest, s, i =>
    match lookupA s.active alg with
    | some _ => InitKeysT ops env oracles rest s i
    | none =>
      match Rotate ops env (oracles i) alg s with
      | (some e, _) =>
        (.error ("failed to initialize key for alg " ++ alg ++ ": " ++ e), [alg])
      | (none, s1) =>
        let res := InitKeysT ops env oracles rest s1 (i + 1)
        (res.1, alg :: res.2)

/-- `KeyManager.InitKeys` as the source writes it (the trace erased). -/
def InitKeys (ops : StoreOps σ) (env : CryptoEnv) (oracles : Nat → RotateOracle)
    (algs : List Alg) (s : KMState σ) (i : Nat) : Except String (KMState σ) :=
  (InitKeysT ops env oracles algs s i).1

/-- Is the record expired at `now` (`ExpiresAt != nil && ExpiresAt.Before(now)`)? -/
def isExpired (k : Key) (now : Int) : Bool :=
  match k.expiresAt with
  | some t => t < now
  | none => false

/-- The loop of `RotateExpired` over the snapshot of `active`, returning
the final state, the collected rotation errors in iteration order, and a
ghost trace of the algorithms for which a rotation was attempted. -/
def RotateExpiredT (ops : StoreOps σ) (env : CryptoEnv)
    (oracles : Nat → RotateOracle) (now : Int) :
    List (String × CachedKey) → KMState σ → Nat →
    KMState σ × List String × List Alg
  | [], s, _ => (s, [], [])
  | (alg, ck) :: rest, s, i =>
    if isExpired (keyOf ck) now then
      match Rotate ops env (oracles i) alg s with
      | (some e, s1) =>
        let res := RotateExpiredT ops env oracles now rest s1 (i + 1)
        (res.1, ("rotate " ++ alg ++ ": " ++ e) :: res.2.1, alg :: res.2.2)
      | (none, s1) =>
        let res := RotateExpiredT ops env oracles now rest s1 (i + 1)
        (res.1, res.2.1, alg :: res.2.2)
    else RotateExpiredT ops env oracles now rest s i

/-- `KeyManager.RotateExpired`: snapshot `active`, rotate every expired
entry, and aggregate all errors into one. -/
def RotateExpired (ops : StoreOps σ) (env : CryptoEnv)
    (oracles : Nat → RotateOracle) (now : Int) (s : KMState σ) :
    Option String × KMState σ :=
  let res := RotateExpiredT ops env oracles now s.active s 0
  (if res.2.1.isEmpty then none
   else some ("rotation errors: [" ++ String.intercalate " " res.2.1 ++ "]"),
   res.1)

/-! ## MockStore (`mock_store.go`), the repository's concrete `Store` -/

/-- `MockStore.data`, a map kid → record, as a list of records
determinised to insertion order; Go map keys are the kids. -/
abbrev StoreData := List Key

/-- `MockStore.Save`. -/
def storeSave (d : StoreData) (k : Key) : StoreData :=
  if d.any (fun x => x.kid == k.kid) then
    d.map (fun x => if x.kid == k.kid then k else x)
  else d ++ [k]

/-- `MockStore.Rotate`: deactivate the stored record matching the old
record's kid in place, then save the new record. -/
def storeRotate (d : StoreData) (newKey : Key) (old : Option Key) : StoreData :=
  let d1 := match old with
    | some o => d.map (fun x => if x.kid == o.kid then { x with isActive := false } else x)
    | none => d
  storeSave d1 newKey

def mockStoreOps : StoreOps StoreData :=
  { list := fun d => .ok d
    rotate := fun d newKey old => .ok (storeRotate d newKey old) }

/-! ## Outcome comparison for the algorithm-independence claim -/

/-- Two `DERToRawECDSA` results agree up to the algorithm name embedded in
the `tooLarge` error message: same bytes on success, same ASN.1 message on
a decode error, both `tooLarge` otherwise. -/
def sameDerOutcome : Except DerError (List Nat) → Except DerError (List Nat) → Prop
  | .ok l1, .ok l2 => l1 = l2
  | .error (.asn1 m1), .error (.asn1 m2) => m1 = m2
  | .error (.tooLarge _), .error (.tooLarge _) => True
  | _, _ => False

/-! ## Concrete fixtures used to instantiate the theorems -/

def ekTriv : EncryptedKey := { nonce := [], ciphertext := [] }

def privTriv : Priv := { pub := .other 0 }

def envTriv : CryptoEnv :=
  { decrypt := fun _ => .ok [], parse := fun _ => .ok privTriv }

def mkKey (kid : String) (alg : Alg) (act : Bool) : Key :=
  { kid := kid, alg := alg, isActive := act, createdAt := 0, expiresAt := none
    encryptedKey := ekTriv }

def oracleA : RotateOracle :=
  { policyRes := .ok { ttl := 5 }, genRes := .ok privTriv
    marshalRes := fun _ => .ok [], encryptRes := fun _ => .ok ekTriv
    now := 100, newKid := "K3" }

def stateTwoActive : KMState StoreData :=
  { store := [mkKey "K1" "A" true, mkKey "K2" "A" true], cache := [], active := [] }

def oracleZeroTTL : RotateOracle :=
  { policyRes := .ok { ttl := 0 }, genRes := .ok privTriv
    marshalRes := fun _ => .ok [], encryptRes := fun _ => .ok ekTriv
    now := 100, newKid := "N1" }

def oracleFresh : RotateOracle :=
  { policyRes := .ok { ttl := 7 }, genRes := .ok privTriv
    marshalRes := fun _ => .ok [], encryptRes := fun _ => .ok ekTriv
    now := 50, newKid := "NEW" }

def oracleFailPolicy : RotateOracle :=
  { policyRes := .error "policy error", genRes := .ok privTriv
    marshalRes := fun _ => .ok [], encryptRes := fun _ => .ok ekTriv
    now := 0, newKid := "X" }

def oraclesFailPolicy : Nat → RotateOracle := fun _ => oracleFailPolicy

def stateEmpty : KMState StoreData := { store := [], cache := [], active := [] }

def stateOneActive : KMState StoreData :=
  { store := [mkKey "OLD" "A" true], cache := [], active := [] }

def opsFailList : StoreOps Unit :=
  { list := fun _ => .error "list failed", rotate := fun s _ _ => .ok s }

def ckES : CachedKey :=
  { key := some (mkKey "kid1" "ES256" true), priv := privTriv, pub := privTriv.pub }

def stateES : KMState Unit :=
  { store := (), cache := [("kid1", ckES)], active := [("ES256", ckES)] }

def seES : SignEnv :=
  { sha256 := fun l => l, signRes := fun _ _ => .ok (derEncodeSig 1 2) }

def buildTriv : String → Except String (List Nat) := fun _ => .ok []

def veTriv : VerifyEnv :=
  { sha256 := fun l => l, rsaVerify := fun _ _ _ _ => true
    ecdsaVerify := fun _ _ _ _ _ => true, edVerify := fun _ _ _ => true }

def gcmTriv : GCMPrims :=
  { nonceSize := 12, sealGCM := fun _ _ p => p, openGCM := fun _ _ c => some c }

def ckRsaFix : CachedKey :=
  { key := some (mkKey "r1" "RS256" true), priv := { pub := .rsa 5 3 }, pub := .rsa 5 3 }

def ckEcFix : CachedKey :=
  { key := some (mkKey "e1" "ES256" false), priv := { pub := .ec 9 4 }, pub := .ec 9 4 }

def ckEdFix : CachedKey :=
  { key := some (mkKey "o1" "EdDSA" true), priv := { pub := .ed [1, 2] }, pub := .ed [1, 2] }

def ckOtherFix : CachedKey :=
  { key := some (mkKey "u1" "RS256" true), priv := privTriv, pub := .other 7 }

/-! ## Lemmas about the byte encodings -/

theorem natBytesFuel_congr : ∀ f1 f2 n : Nat, n ≤ f1 → n ≤ f2 →
    natBytesFuel f1 n = natBytesFuel f2 n := by
  intro f1
  induction f1 with
  | zero =>
    intro f2 n h1 _
    interval_cases n
    cases f2 <;> simp [natBytesFuel]
  | succ f ih =>
    intro f2 n h1 h2
    by_cases hn : n = 0
    · subst hn; cases f2 <;> simp [natBytesFuel]
    · obtain ⟨f2', rfl⟩ : ∃ f2', f2 = f2' + 1 := by
        cases f2 with
        | zero => omega
        | succ m => exact ⟨m, rfl⟩
      simp only [natBytesFuel, if_neg hn]
      have hd : n / 256 < n := Nat.div_lt_self (Nat.pos_of_ne_zero hn) (by decide)
      rw [ih f2' (n / 256) (by omega) (by omega)]

theorem natBytes_zero : natBytes 0 = [] := rfl

theorem natBytes_pos_eq (n : Nat) (h : n ≠ 0) :
    natBytes n = natBytes (n / 256) ++ [n % 256] := by
  have hd : n / 256 < n := Nat.div_lt_self (Nat.pos_of_ne_zero h) (by decide)
  obtain ⟨m, rfl⟩ : ∃ m, n = m + 1 := by
    cases n with
    | zero => omega
    | succ m => exact ⟨m, rfl⟩
  show natBytesFuel (m + 1) (m + 1) = _
  simp only [natBytesFuel, if_neg h]
  rw [natBytesFuel_congr m ((m + 1) / 256) ((m + 1) / 256) (by omega) (by omega)]
  rfl

theorem bytesToNat_nil : bytesToNat [] = 0 := rfl

theorem bytesToNat_foldl : ∀ (bs : List Nat) (a : Nat),
    bs.foldl (fun x b => x * 256 + b) a = a * 256 ^ bs.length + bytesToNat bs
  | [], a => by simp [bytesToNat]
  | b :: t, a => by
    have h1 := bytesToNat_foldl t (a * 256 + b)
    have h2 := bytesToNat_foldl t b
    simp only [bytesToNat, List.foldl_cons, List.length_cons, Nat.zero_mul,
      Nat.zero_add] at *
    rw [h1, h2]
    ring

theorem bytesToNat_cons (b : Nat) (t : List Nat) :
    bytesToNat (b :: t) = b * 256 ^ t.length + bytesToNat t := by
  have h := bytesToNat_foldl t b
  simpa [bytesToNat] using h

theorem bytesToNat_snoc (xs : List Nat) (b : Nat) :
    bytesToNat (xs ++ [b]) = bytesToNat xs * 256 + b := by
  simp [bytesToNat, List.foldl_append]

theorem bytesToNat_natBytes (n : Nat) : bytesToNat (natBytes n) = n := by
  induction n using Nat.strong_induction_on with
  | _ n ih =>
    by_cases h : n = 0
    · subst h; simp [natBytes_zero, bytesToNat_nil]
    · rw [natBytes_pos_eq n h, bytesToNat_snoc,
        ih (n / 256) (Nat.div_lt_self (Nat.pos_of_ne_zero h) (by decide))]
      omega

theorem natBytes_mem_lt (n : Nat) : ∀ b ∈ natBytes n, b < 256 := by
  induction n using Nat.strong_induction_on with
  | _ n ih =>
    by_cases h : n = 0
    · subst h; simp [natBytes_zero]
    · rw [natBytes_pos_eq n h]
      intro b hb
      rcases List.mem_append.1 hb with hb | hb
      · exact ih (n / 256) (Nat.div_lt_self (Nat.pos_of_ne_zero h) (by decide)) b hb
      · simp at hb; subst hb; exact Nat.mod_lt n (by decide)

theorem natBytes_head (n : Nat) (h : n ≠ 0) :
    ∃ b t, natBytes n = b :: t ∧ b ≠ 0 ∧ b < 256 := by
  induction n using Nat.strong_induction_on with
  | _ n ih =>
    by_cases hsmall : n < 256
    · refine ⟨n % 256, [], ?_, ?_, ?_⟩
      · rw [natBytes_pos_eq n h, Nat.div_eq_of_lt hsmall, natBytes_zero]
        rfl
      · omega
      · exact Nat.mod_lt n (by decide)
    · have hq : n / 256 ≠ 0 := by
        intro hq0
        have := Nat.div_eq_of_lt (show n < 256 from by omega)
        omega
      obtain ⟨b, t, ht, hb0, hb⟩ :=
        ih (n / 256) (Nat.div_lt_self (Nat.pos_of_ne_zero h) (by decide)) hq
      exact ⟨b, t ++ [n % 256], by rw [natBytes_pos_eq n h, ht]; rfl, hb0, hb⟩

theorem natBytes_length_le (n m : Nat) (h : n < 256 ^ m) :
    (natBytes n).length ≤ m := by
  induction n using Nat.strong_induction_on generalizing m with
  | _ n ih =>
    by_cases h0 : n = 0
    · subst h0; simp [natBytes_zero]
    · cases m with
      | zero => simp at h; omega
      | succ m' =>
        rw [natBytes_pos_eq n h0]
        have hq : n / 256 < 256 ^ m' := by
          have h256 : (0:Nat) < 256 := by decide
          rw [Nat.div_lt_iff_lt_mul h256]
          calc n < 256 ^ (m' + 1) := h
            _ = 256 ^ m' * 256 := by ring
        have := ih (n / 256) (Nat.div_lt_self (Nat.pos_of_ne_zero h0) (by decide)) m' hq
        simp [List.length_append]
        omega

theorem zeroPad_length (w : Nat) (bs : List Nat) (h : bs.length ≤ w) :
    (zeroPad w bs).length = w := by
  simp [zeroPad]
  omega

/-! ## Lemmas about the DER parser on encoder output -/

theorem and128_of_lt : ∀ b, b < 128 → b &&& 128 = 0 := by decide

theorem and127_of_lt : ∀ b, b < 128 → b &&& 127 = b := by decide

theorem and128_of_ge : ∀ b, b < 256 → 128 ≤ b → b &&& 128 = 128 := by decide

theorem lenByte_facts : ∀ k, k < 5 → 1 ≤ k →
    ¬((128 + k) &&& 128 = 0) ∧ (128 + k) ≠ 128 ∧ (128 + k) &&& 127 = k := by decide

theorem parseLenLong_spec : ∀ (ds : List Nat) (acc : Nat) (rest : List Nat),
    (∀ d ∈ ds, d < 256) → 0 < acc →
    acc * 256 ^ ds.length + bytesToNat ds < 2 ^ 31 →
    parseLenLong (ds ++ rest) ds.length acc =
      (if acc * 256 ^ ds.length + bytesToNat ds < 0x80 then .error "non-minimal length"
       else .ok (acc * 256 ^ ds.length + bytesToNat ds, rest))
  | [], acc, rest => by
    intro _ hacc _
    simp [parseLenLong, bytesToNat_nil]
  | d :: t, acc, rest => by
    intro hds hacc hbound
    have hd256 : d < 256 := hds d (by simp)
    have hval : (acc * 256 + d) * 256 ^ t.length + bytesToNat t =
        acc * 256 ^ (d :: t).length + bytesToNat (d :: t) := by
      rw [bytesToNat_cons]
      simp [List.length_cons]
      ring
    have hacc_small : ¬ acc ≥ 8388608 := by
      intro hge
      have h1 : (256:Nat) ≤ 256 ^ (d :: t).length := by
        calc (256:Nat) = 256 ^ 1 := by norm_num
          _ ≤ 256 ^ (d :: t).length := Nat.pow_le_pow_right (by decide) (by simp)
      have h2 : acc * 256 ≤ acc * 256 ^ (d :: t).length := Nat.mul_le_mul_left acc h1
      have h3 : acc * 256 < 2 ^ 31 := by omega
      have : (8388608 : Nat) * 256 ≤ acc * 256 := Nat.mul_le_mul_right 256 hge
      omega
    have hacc1 : ¬ (acc * 256 + d = 0) := by positivity
    show parseLenLong (d :: (t ++ rest)) (t.length + 1) acc = _
    rw [parseLenLong]
    simp only [if_neg hacc_small, if_neg hacc1]
    rw [parseLenLong_spec t (acc * 256 + d) rest (fun x hx => hds x (by simp [hx])) (by omega)
      (by rw [hval]; exact hbound)]
    rw [hval]

theorem parseTagAndLength_derLen (t L : Nat) (rest : List Nat)
    (htag : ¬ t &&& 0x1f = 0x1f) (hL : L < 2 ^ 31) :
    parseTagAndLength (t :: (derLen L ++ rest)) =
      .ok ({ cls := t >>> 6, compound := t &&& 0x20 == 0x20,
             tag := t &&& 0x1f, length := L }, rest) := by
  by_cases hshort : L < 0x80
  · have h1 : L &&& 128 = 0 := and128_of_lt L hshort
    have h2 : L &&& 127 = L := and127_of_lt L hshort
    simp only [parseTagAndLength, derLen, if_pos hshort, if_neg htag, List.cons_append,
      List.nil_append]
    simp [h1, h2]
  · have hpos : L ≠ 0 := by omega
    obtain ⟨b, tl, hnb, hb0, hb256⟩ := natBytes_head L hpos
    have hk1 : 1 ≤ (natBytes L).length := by rw [hnb]; simp
    have hk4 : (natBytes L).length ≤ 4 := natBytes_length_le L 4 (by norm_num at hL ⊢; omega)
    obtain ⟨hf1, hf2, hf3⟩ := lenByte_facts (natBytes L).length (by omega) hk1
    simp only [parseTagAndLength, derLen, if_neg hshort, if_neg htag, List.cons_append]
    simp only [if_neg hf1, if_neg hf2, hf3]
    have hstep : parseLenLong (natBytes L ++ rest) (natBytes L).length 0 =
        .ok (L, rest) := by
      rw [hnb]
      show parseLenLong (b :: (tl ++ rest)) (tl.length + 1) 0 = _
      rw [parseLenLong]
      have hz : ¬ ((0:Nat) ≥ 8388608) := by omega
      have hb' : ¬ (0 * 256 + b = 0) := by omega
      simp only [if_neg hz, if_neg hb']
      have hds : ∀ d ∈ tl, d < 256 := by
        intro d hd
        exact natBytes_mem_lt L d (by rw [hnb]; simp [hd])
      have hLval : (0 * 256 + b) * 256 ^ tl.length + bytesToNat tl = L := by
        have h := bytesToNat_natBytes L
        rw [hnb, bytesToNat_cons] at h
        calc (0 * 256 + b) * 256 ^ tl.length + bytesToNat tl
            = b * 256 ^ tl.length + bytesToNat tl := by ring
          _ = L := h
      rw [parseLenLong_spec tl (0 * 256 + b) rest hds (by omega) (by rw [hLval]; exact hL)]
      rw [hLval]
      simp [if_neg (show ¬ L < 0x80 from hshort)]
    rw [hstep]

theorem intContents_length (n : Nat) :
    (intContents n).length ≤ (natBytes n).length + 1 := by
  unfold intContents
  by_cases h0 : n = 0
  · simp [h0]
  · by_cases hs : 0x80 ≤ (natBytes n).headI <;> simp [h0, hs]

theorem parseBigInt_intContents (n : Nat) :
    parseBigInt (intContents n) = .ok (Int.ofNat n) := by
  by_cases h0 : n = 0
  · subst h0; rfl
  · obtain ⟨b, tl, hnb, hb0, hb256⟩ := natBytes_head n h0
    have hbtn : bytesToNat (b :: tl) = n := by rw [← hnb]; exact bytesToNat_natBytes n
    by_cases hsign : 0x80 ≤ (natBytes n).headI
    · have hb128 : 128 ≤ b := by rw [hnb] at hsign; simpa using hsign
      have hand : b &&& 128 = 128 := and128_of_ge b hb256 hb128
      have hic : intContents n = 0 :: b :: tl := by
        rw [intContents, if_neg h0, if_pos hsign, hnb]
      rw [hic]
      have hchk : checkInteger (0 :: b :: tl) = .ok () := by
        rw [checkInteger]
        rw [if_neg]
        simp [hand]
      rw [parseBigInt, hchk]
      have hz : ¬ ((0:Nat) &&& 128 = 128) := by decide
      simp only [if_neg hz]
      have : bytesToNat (0 :: b :: tl) = n := by
        rw [bytesToNat_cons]
        simpa using hbtn
      rw [this]
    · have hblt : b < 128 := by
        rw [hnb] at hsign; simpa using hsign
      have hand : ¬ (b &&& 128 = 128) := by rw [and128_of_lt b hblt]; decide
      have hic : intContents n = b :: tl := by
        rw [intContents, if_neg h0, if_neg hsign, hnb]
      rw [hic]
      have hchk : checkInteger (b :: tl) = .ok () := by
        cases tl with
        | nil => rfl
        | cons b1 tl1 =>
          rw [checkInteger]
          rw [if_neg]
          intro hcon
          rcases hcon with ⟨h1, _⟩ | ⟨h1, _⟩ <;> omega
      rw [parseBigInt, hchk]
      simp only [if_neg hand]
      rw [hbtn]

theorem parseIntField_derInt (n : Nat) (rest : List Nat)
    (h : (natBytes n).length ≤ 1048576) :
    parseIntField (derInt n ++ rest) = .ok (Int.ofNat n, rest) := by
  have hp31 : (2:Nat) ^ 31 = 2147483648 := by norm_num
  have hlen := intContents_length n
  have hc : (intContents n).length < 2 ^ 31 := by omega
  have hdr : derInt n ++ rest =
      0x02 :: (derLen (intContents n).length ++ (intContents n ++ rest)) := by
    simp [derInt, List.cons_append, List.append_assoc]
  rw [hdr, parseIntField,
    parseTagAndLength_derLen 0x02 (intContents n).length (intContents n ++ rest)
      (by decide) hc]
  have e1 : (2:Nat) >>> 6 = 0 := by decide
  have e2 : ((2:Nat) &&& 32 == 32) = false := by decide
  have e3 : (2:Nat) &&& 31 = 2 := by decide
  simp only [e1, e2, e3]
  have h1 : ¬ ((intContents n ++ rest).length < (intContents n).length) := by
    rw [List.length_append]; omega
  rw [if_neg h1, if_neg (by simp)]
  rw [List.take_left, List.drop_left, parseBigInt_intContents n]

theorem derLen_length_le (L : Nat) (h : L < 2 ^ 31) : (derLen L).length ≤ 5 := by
  unfold derLen
  by_cases hs : L < 0x80
  · simp [hs]
  · have hk : (natBytes L).length ≤ 4 := natBytes_length_le L 4 (by norm_num at h ⊢; omega)
    simp [hs]
    omega

theorem parseEcdsaSig_derEncode (r s : Nat)
    (hr : (natBytes r).length ≤ 1048576) (hs : (natBytes s).length ≤ 1048576) :
    parseEcdsaSig (derEncodeSig r s) = .ok (Int.ofNat r, Int.ofNat s) := by
  have hp31 : (2:Nat) ^ 31 = 2147483648 := by norm_num
  have hlr := intContents_length r
  have hls := intContents_length s
  have hdlr := derLen_length_le (intContents r).length (by omega)
  have hdls := derLen_length_le (intContents s).length (by omega)
  have hir : (derInt r).length ≤ 1048583 := by
    unfold derInt
    simp only [List.length_cons, List.length_append]
    omega
  have his : (derInt s).length ≤ 1048583 := by
    unfold derInt
    simp only [List.length_cons, List.length_append]
    omega
  have hbody : (derInt r ++ derInt s).length < 2 ^ 31 := by
    rw [List.length_append]; omega
  have hdr : derEncodeSig r s =
      0x30 :: (derLen (derInt r ++ derInt s).length ++ (derInt r ++ derInt s)) := by
    simp [derEncodeSig]
  rw [hdr, parseEcdsaSig,
    parseTagAndLength_derLen 0x30 (derInt r ++ derInt s).length (derInt r ++ derInt s)
      (by decide) hbody]
  have e1 : (48:Nat) >>> 6 = 0 := by decide
  have e2 : ((48:Nat) &&& 32 == 32) = true := by decide
  have e3 : (48:Nat) &&& 31 = 16 := by decide
  simp only [e1, e2, e3]
  rw [if_neg (by omega), if_neg (by simp), List.take_length,
    parseIntField_derInt r (derInt s) hr]
  have hfin : parseIntField (derInt s) = .ok (Int.ofNat s, []) := by
    have h2 := parseIntField_derInt s [] hs
    simpa using h2
  simp only [hfin]

/-! ## Lemmas about `DERToRawECDSA` itself -/

theorem DERToRawECDSA_encode_ok (alg : Alg) (r s : Nat)
    (hr : (natBytes r).length ≤ 32) (hs : (natBytes s).length ≤ 32) :
    DERToRawECDSA alg (derEncodeSig r s) =
      .ok (zeroPad 32 (natBytes r) ++ zeroPad 32 (natBytes s)) := by
  rw [DERToRawECDSA, parseEcdsaSig_derEncode r s (by omega) (by omega)]
  have hna : (Int.ofNat r).natAbs = r := rfl
  have hnb : (Int.ofNat s).natAbs = s := rfl
  simp only [hna, hnb]
  rw [if_neg (by omega)]

theorem DERToRawECDSA_encode_tooLarge (alg : Alg) (r s : Nat)
    (hr : (natBytes r).length ≤ 1048576) (hs : (natBytes s).length ≤ 1048576)
    (hbig : 32 < (natBytes r).length ∨ 32 < (natBytes s).length) :
    DERToRawECDSA alg (derEncodeSig r s) = .error (.tooLarge alg) := by
  rw [DERToRawECDSA, parseEcdsaSig_derEncode r s hr hs]
  have hna : (Int.ofNat r).natAbs = r := rfl
  have hnb : (Int.ofNat s).natAbs = s := rfl
  simp only [hna, hnb]
  rw [if_pos (by omega)]

theorem DERToRawECDSA_ok_length (alg : Alg) (der out : List Nat)
    (h : DERToRawECDSA alg der = .ok out) : out.length = 64 := by
  unfold DERToRawECDSA at h
  cases hp : parseEcdsaSig der with
  | error e => rw [hp] at h; exact absurd h (by simp)
  | ok p =>
    obtain ⟨r, s⟩ := p
    rw [hp] at h
    simp only at h
    by_cases hsz : (natBytes r.natAbs).length > 32 ∨ (natBytes s.natAbs).length > 32
    · rw [if_pos hsz] at h; exact absurd h (by simp)
    · rw [if_neg hsz] at h
      push_neg at hsz
      obtain ⟨h1, h2⟩ := hsz
      cases h
      rw [List.length_append, zeroPad_length 32 _ h1, zeroPad_length 32 _ h2]

/-- C3: on well-formed DER `SEQUENCE{INTEGER R, INTEGER S}` input (the
encoder image for non-negative R, S) whose minimal big-endian encodings
fit in 32 bytes, `DERToRawECDSA` returns exactly the 64-byte left-padded
`R‖S`; when either integer needs more than 32 bytes (any realistic size,
bounded here by 2^20 bytes so that Go's internal 2^23 length sanity check
cannot fire first) it fails with the "too large" error; and on the spec's
structurally invalid example `0xFF 0x00 0x01` it fails with a decode
error. -/
theorem claim_C3_der_codec :
    (∀ (alg : Alg) (r s : Nat),
      (natBytes r).length ≤ 32 → (natBytes s).length ≤ 32 →
      DERToRawECDSA alg (derEncodeSig r s) =
        .ok (zeroPad 32 (natBytes r) ++ zeroPad 32 (natBytes s)) ∧
      (zeroPad 32 (natBytes r) ++ zeroPad 32 (natBytes s)).length = 64) ∧
    (∀ (alg : Alg) (r s : Nat),
      (natBytes r).length ≤ 1048576 → (natBytes s).length ≤ 1048576 →
      (32 < (natBytes r).length ∨ 32 < (natBytes s).length) →
      DERToRawECDSA alg (derEncodeSig r s) = .error (.tooLarge alg)) ∧
    DERToRawECDSA AlgES256 [0xFF, 0x00, 0x01] = .error (.asn1 "non-minimal tag") := by
  refine ⟨?_, ?_, ?_⟩
  · intro alg r s hr hs
    refine ⟨DERToRawECDSA_encode_ok alg r s hr hs, ?_⟩
    rw [List.length_append, zeroPad_length 32 _ hr, zeroPad_length 32 _ hs]
  · intro alg r s hr hs hbig
    exact DERToRawECDSA_encode_tooLarge alg r s hr hs hbig
  · decide

/-- Witness for C3 at R = 1, S = 2. -/
theorem claim_C3_der_codec_witness :
    (natBytes 1).length ≤ 32 ∧ (natBytes 2).length ≤ 32 ∧
    (DERToRawECDSA AlgES256 (derEncodeSig 1 2) =
      .ok (zeroPad 32 (natBytes 1) ++ zeroPad 32 (natBytes 2)) ∧
     (zeroPad 32 (natBytes 1) ++ zeroPad 32 (natBytes 2)).length = 64) :=
  ⟨by decide, by decide, claim_C3_der_codec.1 AlgES256 1 2 (by decide) (by decide)⟩

/-- C9: `DERToRawECDSA` ignores its algorithm argument except for the
name interpolated into the "too large" error message: for every pair of
algorithms and every input the outcomes agree (equal success bytes, equal
decode error, or both "too large"). -/
theorem claim_C9_alg_independent :
    ∀ (a1 a2 : Alg) (der : List Nat),
      sameDerOutcome (DERToRawECDSA a1 der) (DERToRawECDSA a2 der) := by
  intro a1 a2 der
  unfold DERToRawECDSA
  cases hp : parseEcdsaSig der with
  | error e => simp [sameDerOutcome]
  | ok p =>
    obtain ⟨r, s⟩ := p
    by_cases hsz : (natBytes r.natAbs).length > 32 ∨ (natBytes s.natAbs).length > 32
    · simp only [if_pos hsz]
      simp [sameDerOutcome]
    · simp only [if_neg hsz]
      simp [sameDerOutcome]

/-- C4: sequencing correctness of the AES-GCM encryptor: for any AEAD
primitive satisfying the seal/open round-trip contract, any 32-byte
master key, any sufficiently long randomness stream and any plaintext
(the empty one included), `Decrypt (Encrypt p) = p` under the same
encryptor. -/
theorem claim_C4_aead_roundtrip :
    ∀ (g : GCMPrims) (key randBytes p : List Nat),
      (∀ k n q, g.openGCM k n (g.sealGCM k n q) = some q) →
      key.length = 32 →
      g.nonceSize ≤ randBytes.length →
      ∃ e, AESGCMEncrypt g key randBytes p = .ok e ∧
           AESGCMDecrypt g key e = .ok p := by
  intro g key rb p hrt hk hr
  have hcipher : aesNewCipherOk key = true := by
    simp [aesNewCipherOk, hk]
  have hnlen : (rb.take g.nonceSize).length = g.nonceSize := by
    rw [List.length_take]
    omega
  refine ⟨{ nonce := rb.take g.nonceSize
            ciphertext := g.sealGCM key (rb.take g.nonceSize) p }, ?_, ?_⟩
  · rw [AESGCMEncrypt, if_neg (by simp [hcipher]), if_neg (by omega)]
  · rw [AESGCMDecrypt, if_neg (by simp [hcipher]), if_neg (by simp [hnlen])]
    simp only [hrt]

/-- Witness for C4: a trivial AEAD primitive, an all-zero 32-byte key and
the empty plaintext. -/
theorem claim_C4_aead_roundtrip_witness :
    (∀ k n q, gcmTriv.openGCM k n (gcmTriv.sealGCM k n q) = some q) ∧
    (List.replicate 32 0).length = 32 ∧
    gcmTriv.nonceSize ≤ (List.replicate 12 0).length ∧
    ∃ e, AESGCMEncrypt gcmTriv (List.replicate 32 0) (List.replicate 12 0) [] = .ok e ∧
         AESGCMDecrypt gcmTriv (List.replicate 32 0) e = .ok [] :=
  ⟨fun _ _ _ => rfl, by decide, by decide,
   claim_C4_aead_roundtrip gcmTriv (List.replicate 32 0) (List.replicate 12 0) []
     (fun _ _ _ => rfl) (by decide) (by decide)⟩

theorem buildJWKS_foldl (cache : List (String × CachedKey)) (acc : List JWK) :
    cache.foldl (fun acc p =>
        match jwkOf p.2 with
        | some j => acc ++ [j]
        | none => acc) acc
      = acc ++ cache.filterMap (fun p => jwkOf p.2) := by
  induction cache generalizing acc with
  | nil => simp
  | cons hd tl ih =>
    simp only [List.foldl_cons, List.filterMap_cons]
    cases h : jwkOf hd.2 with
    | none => simp only [h]; rw [ih]
    | some j => simp only [h]; rw [ih]; simp

/-- C8: the JWKS export emits exactly one entry per cached key whose
record is present and whose public key has a supported kind (active or
not), with the kid/alg/use fields and the per-kind fields of the spec;
entries with a missing record or an unknown key kind are skipped without
an error. -/
theorem claim_C8_jwks_export :
    (∀ cache : List (String × CachedKey),
      buildJWKS cache = { keys := cache.filterMap (fun p => jwkOf p.2) }) ∧
    (∀ ck : CachedKey,
      (jwkOf ck).isSome ↔ ck.key.isSome = true ∧ ∀ t, ck.pub ≠ .other t) ∧
    (∀ (ck : CachedKey) (k : Key) (n e : Nat), ck.key = some k → ck.pub = .rsa n e →
      jwkOf ck = some { kty := "RSA", kid := k.kid, alg := k.alg, use := "sig"
                        n := b64big n, e := b64big e, crv := "", x := "", y := "" }) ∧
    (∀ (ck : CachedKey) (k : Key) (x y : Nat), ck.key = some k → ck.pub = .ec x y →
      jwkOf ck = some { kty := "EC", kid := k.kid, alg := k.alg, use := "sig"
                        n := "", e := "", crv := "P-256", x := b64big x, y := b64big y }) ∧
    (∀ (ck : CachedKey) (k : Key) (pb : List Nat), ck.key = some k → ck.pub = .ed pb →
      jwkOf ck = some { kty := "OKP", kid := k.kid, alg := k.alg, use := "sig"
                        n := "", e := "", crv := "Ed25519", x := b64 pb, y := "" }) ∧
    (∀ (ck : CachedKey) (t : Nat), ck.pub = .other t → jwkOf ck = none) ∧
    (∀ ck : CachedKey, ck.key = none → jwkOf ck = none) := by
  refine ⟨?_, ?_, ?_, ?_, ?_, ?_, ?_⟩
  · intro cache
    rw [buildJWKS, buildJWKS_foldl cache []]
    rfl
  · intro ck
    obtain ⟨okey, priv, pub⟩ := ck
    cases okey <;> cases pub <;> simp [jwkOf]
  · intro ck k n e hk hp
    obtain ⟨okey, priv, pub⟩ := ck
    cases hk; cases hp; rfl
  · intro ck k x y hk hp
    obtain ⟨okey, priv, pub⟩ := ck
    cases hk; cases hp; rfl
  · intro ck k pb hk hp
    obtain ⟨okey, priv, pub⟩ := ck
    cases hk; cases hp; rfl
  · intro ck t hp
    obtain ⟨okey, priv, pub⟩ := ck
    cases hp
    cases okey <;> rfl
  · intro ck hk
    obtain ⟨okey, priv, pub⟩ := ck
    cases hk; rfl

/-- Witness for C8 at a concrete RSA entry. -/
theorem claim_C8_jwks_export_witness :
    ckRsaFix.key = some (mkKey "r1" "RS256" true) ∧
    ckRsaFix.pub = .rsa 5 3 ∧
    jwkOf ckRsaFix =
      some { kty := "RSA", kid := (mkKey "r1" "RS256" true).kid
             alg := (mkKey "r1" "RS256" true).alg, use := "sig"
             n := b64big 5, e := b64big 3, crv := "", x := "", y := "" } :=
  ⟨rfl, rfl, claim_C8_jwks_export.2.2.1 ckRsaFix (mkKey "r1" "RS256" true) 5 3 rfl rfl⟩

theorem buildCaches_err (env : CryptoEnv) :
    ∀ (keys : List Key) (c a : List (String × CachedKey)),
      (∃ k ∈ keys, (∃ e, env.decrypt k.encryptedKey = .error e) ∨
        (∃ pb, env.decrypt k.encryptedKey = .ok pb ∧ ∃ e, env.parse pb = .error e)) →
      ∃ e, buildCaches env keys c a = .error e
  | [], c, a => by
    intro h
    obtain ⟨k, hk, _⟩ := h
    exact absurd hk (by simp)
  | hd :: tl, c, a => by
    intro h
    cases hdec : env.decrypt hd.encryptedKey with
    | error e =>
      refine ⟨"decrypt key " ++ hd.kid ++ ": " ++ e, ?_⟩
      simp only [buildCaches, hdec]
    | ok pb =>
      cases hpar : env.parse pb with
      | error e =>
        refine ⟨"parse key " ++ hd.kid ++ ": " ++ e, ?_⟩
        simp only [buildCaches, hdec, hpar]
      | ok priv =>
        obtain ⟨k, hk, hbad⟩ := h
        rcases List.mem_cons.1 hk with rfl | hk2
        · exfalso
          rcases hbad with ⟨e, he⟩ | ⟨pb2, hpb2, e, he⟩
          · rw [hdec] at he; exact absurd he (by simp)
          · rw [hdec] at hpb2
            obtain rfl : pb = pb2 := by injection hpb2
            rw [hpar] at he; exact absurd he (by simp)
        · obtain ⟨e, he⟩ := buildCaches_err env tl
            (insertA c hd.kid { key := some hd, priv := priv, pub := priv.pub })
            (if hd.isActive then insertA a hd.alg { key := some hd, priv := priv, pub := priv.pub } else a)
            ⟨k, hk2, hbad⟩
          refine ⟨e, ?_⟩
          simp only [buildCaches, hdec, hpar]
          exact he

/-- C1: `ReloadCache` is atomic on failure: if listing fails, or
decrypting or parsing any stored record fails, the call returns an error
and both maps (and hence every lookup) are exactly what they were. -/
theorem claim_C1_reload_atomic :
    ∀ (σ : Type) (ops : StoreOps σ) (env : CryptoEnv) (s : KMState σ),
      ((∃ e, ops.list s.store = .error e) ∨
        (∃ keys, ops.list s.store = .ok keys ∧ ∃ k ∈ keys,
          (∃ e, env.decrypt k.encryptedKey = .error e) ∨
          (∃ pb, env.decrypt k.encryptedKey = .ok pb ∧ ∃ e, env.parse pb = .error e))) →
      (∃ e, reloadCacheRun ops env s = (some e, s)) ∧
      (reloadCacheRun ops env s).2.cache = s.cache ∧
      (reloadCacheRun ops env s).2.active = s.active ∧
      (∀ kid, lookupA (reloadCacheRun ops env s).2.cache kid = lookupA s.cache kid) ∧
      (∀ alg, lookupA (reloadCacheRun ops env s).2.active alg = lookupA s.active alg) := by
  intro σ ops env s h
  have herr : ∃ e, ReloadCache ops env s = .error e := by
    rcases h with ⟨e, hl⟩ | ⟨keys, hl, hbad⟩
    · exact ⟨e, by simp only [ReloadCache, hl]⟩
    · obtain ⟨e, hbc⟩ := buildCaches_err env keys [] [] hbad
      exact ⟨e, by simp only [ReloadCache, hl, hbc]⟩
  obtain ⟨e, he⟩ := herr
  have hrun : reloadCacheRun ops env s = (some e, s) := by
    rw [reloadCacheRun, he]
  exact ⟨⟨e, hrun⟩, by rw [hrun], by rw [hrun],
    fun kid => by rw [hrun], fun alg => by rw [hrun]⟩

/-- Witness for C1: a store whose `List` fails, with a previously cached
ES256 key that stays queryable. -/
theorem claim_C1_reload_atomic_witness :
    (∃ e, reloadCacheRun opsFailList envTriv stateES = (some e, stateES)) ∧
    (reloadCacheRun opsFailList envTriv stateES).2.cache = stateES.cache ∧
    (reloadCacheRun opsFailList envTriv stateES).2.active = stateES.active ∧
    (∀ kid, lookupA (reloadCacheRun opsFailList envTriv stateES).2.cache kid =
      lookupA stateES.cache kid) ∧
    (∀ alg, lookupA (reloadCacheRun opsFailList envTriv stateES).2.active alg =
      lookupA stateES.active alg) :=
  claim_C1_reload_atomic Unit opsFailList envTriv stateES (Or.inl ⟨"list failed", rfl⟩)

/-- C6: a cache miss triggers one best-effort reload whose error is
discarded; if the retried lookup still misses, `Sign` reports "no active
key" and `Verify` reports "key not found" instead of the storage error. -/
theorem claim_C6_miss_best_effort :
    ∀ (σ : Type) (ops : StoreOps σ) (env : CryptoEnv) (se : SignEnv) (ve : VerifyEnv)
      (build : String → Except String (List Nat)) (alg : Alg) (kid : String)
      (payload sig : List Nat) (s : KMState σ) (err : String),
      (lookupA s.active alg = none → ReloadCache ops env s = .error err →
        Sign ops env se build alg s = (.error ("no active key for alg " ++ alg), s)) ∧
      (lookupA s.cache kid = none → ReloadCache ops env s = .error err →
        Verify ops env ve kid payload sig s = (.error ("key " ++ kid ++ " not found"), s)) ∧
      (∀ s2, lookupA s.active alg = none → ReloadCache ops env s = .ok s2 →
        lookupA s2.active alg = none →
        Sign ops env se build alg s = (.error ("no active key for alg " ++ alg), s2)) ∧
      (∀ s2, lookupA s.cache kid = none → ReloadCache ops env s = .ok s2 →
        lookupA s2.cache kid = none →
        Verify ops env ve kid payload sig s = (.error ("key " ++ kid ++ " not found"), s2)) := by
  intro σ ops env se ve build alg kid payload sig s err
  refine ⟨?_, ?_, ?_, ?_⟩
  · intro hmiss hrc
    have hs1 : afterMissReload ops env s = s := by
      rw [afterMissReload, reloadCacheRun, hrc]
    have hak : activeKey ops env alg s = (none, s) := by
      rw [activeKey, hmiss]
      simp only [hs1, hmiss]
    rw [Sign, hak]
  · intro hmiss hrc
    have hs1 : afterMissReload ops env s = s := by
      rw [afterMissReload, reloadCacheRun, hrc]
    have hkk : keyByKID ops env kid s = (none, s) := by
      rw [keyByKID, hmiss]
      simp only [hs1, hmiss]
    rw [Verify, hkk]
  · intro s2 hmiss hrc hmiss2
    have hs1 : afterMissReload ops env s = s2 := by
      rw [afterMissReload, reloadCacheRun, hrc]
    have hak : activeKey ops env alg s = (none, s2) := by
      rw [activeKey, hmiss]
      simp only [hs1, hmiss2]
    rw [Sign, hak]
  · intro s2 hmiss hrc hmiss2
    have hs1 : afterMissReload ops env s = s2 := by
      rw [afterMissReload, reloadCacheRun, hrc]
    have hkk : keyByKID ops env kid s = (none, s2) := by
      rw [keyByKID, hmiss]
      simp only [hs1, hmiss2]
    rw [Verify, hkk]

/-- Witness for C6: a failing store, a missing algorithm and a missing
key id. -/
theorem claim_C6_miss_best_effort_witness :
    lookupA stateES.active AlgRS256 = none ∧
    lookupA stateES.cache "nope" = none ∧
    ReloadCache opsFailList envTriv stateES = .error "list failed" ∧
    Sign opsFailList envTriv seES buildTriv AlgRS256 stateES =
      (.error ("no active key for alg " ++ AlgRS256), stateES) ∧
    Verify opsFailList envTriv veTriv "nope" [] [] stateES =
      (.error ("key " ++ "nope" ++ " not found"), stateES) :=
  ⟨by decide, by decide, rfl,
   (claim_C6_miss_best_effort Unit opsFailList envTriv seES veTriv buildTriv
      AlgRS256 "nope" [] [] stateES "list failed").1 (by decide) rfl,
   (claim_C6_miss_best_effort Unit opsFailList envTriv seES veTriv buildTriv
      AlgRS256 "nope" [] [] stateES "list failed").2.1 (by decide) rfl⟩

/-- C5: `Sign` dispatches to the pipeline seeded with the resolved active
key, that pipeline consults the caller's payload builder only at the
resolved key's id, and for ES256 every successful result has passed
through `DERToRawECDSA` (so it is 64 raw bytes, never DER). -/
theorem claim_C5_sign_active_key :
    ∀ (σ : Type) (ops : StoreOps σ) (env : CryptoEnv) (se : SignEnv)
      (build : String → Except String (List Nat)) (alg : Alg)
      (s s1 : KMState σ) (ck : CachedKey),
      activeKey ops env alg s = (some ck, s1) →
      (Sign ops env se build alg s = (signGiven se build alg ck, s1)) ∧
      (∀ b1 b2 : String → Except String (List Nat),
        b1 (keyOf ck).kid = b2 (keyOf ck).kid →
        signGiven se b1 alg ck = signGiven se b2 alg ck) ∧
      (∀ out, signGiven se build AlgES256 ck = .ok out →
        out.length = 64 ∧
        ∃ input der, build (keyOf ck).kid = .ok input ∧
          se.signRes ck.priv (se.sha256 input) = .ok der ∧
          DERToRawECDSA AlgES256 der = .ok out) := by
  intro σ ops env se build alg s s1 ck hak
  refine ⟨?_, ?_, ?_⟩
  · rw [Sign, hak]
  · intro b1 b2 hb
    rw [signGiven, signGiven, hb]
  · intro out hout
    rw [signGiven] at hout
    cases hb : build (keyOf ck).kid with
    | error e =>
      simp only [hb] at hout
      exact absurd hout (by simp)
    | ok input =>
      have hso : signingOptions AlgES256 = .ok .sha256 := rfl
      simp only [hb, hso] at hout
      cases hsig : se.signRes ck.priv (hashDigest .sha256 se input) with
      | error e =>
        simp only [hsig] at hout
        exact absurd hout (by simp)
      | ok der =>
        have hne : ¬ (AlgES256 ≠ AlgES256) := by simp
        simp only [hsig, if_neg hne] at hout
        cases hder : DERToRawECDSA AlgES256 der with
        | error e =>
          simp only [hder] at hout
          exact absurd hout (by simp)
        | ok raw =>
          simp only [hder] at hout
          have hro : raw = out := by simpa using hout
          rw [← hro]
          exact ⟨DERToRawECDSA_ok_length AlgES256 der raw hder, input, der, rfl, hsig, hder⟩

/-- Witness for C5 at a cached ES256 key whose signer oracle emits a
concrete DER signature. -/
theorem claim_C5_sign_active_key_witness :
    activeKey opsFailList envTriv AlgES256 stateES = (some ckES, stateES) ∧
    Sign opsFailList envTriv seES buildTriv AlgES256 stateES =
      (signGiven seES buildTriv AlgES256 ckES, stateES) :=
  ⟨by decide,
   (claim_C5_sign_active_key Unit opsFailList envTriv seES buildTriv AlgES256
      stateES stateES ckES (by decide)).1⟩

theorem ReloadCache_store {σ : Type} (ops : StoreOps σ) (env : CryptoEnv)
    (s s2 : KMState σ) (h : ReloadCache ops env s = .ok s2) : s2.store = s.store := by
  rw [ReloadCache] at h
  cases hl : ops.list s.store with
  | error e =>
    simp only [hl] at h
    exact absurd h (by simp)
  | ok keys =>
    simp only [hl] at h
    cases hbc : buildCaches env keys [] [] with
    | error e =>
      simp only [hbc] at h
      exact absurd h (by simp)
    | ok pair =>
      obtain ⟨nc, na⟩ := pair
      simp only [hbc] at h
      have h2 : ({ s with cache := nc, active := na } : KMState σ) = s2 := by
        simpa using h
      rw [← h2]

theorem storeSave_fresh (d : StoreData) (k : Key)
    (h : ∀ x ∈ d, x.kid ≠ k.kid) : storeSave d k = d ++ [k] := by
  rw [storeSave, if_neg]
  intro hany
  rw [List.any_eq_true] at hany
  obtain ⟨x, hx, hxk⟩ := hany
  exact h x hx (by simpa using hxk)

theorem storeSave_mem (d : StoreData) (k : Key) : k ∈ storeSave d k := by
  rw [storeSave]
  by_cases hany : d.any (fun x => x.kid == k.kid) = true
  · rw [if_pos hany]
    rw [List.any_eq_true] at hany
    obtain ⟨x, hx, hxk⟩ := hany
    refine List.mem_map.2 ⟨x, hx, ?_⟩
    rw [if_pos hxk]
  · rw [if_neg hany]
    simp

theorem storeRotate_unique_active (d : StoreData) (alg : Alg) (newKey : Key)
    (halg : newKey.alg = alg) (hact : newKey.isActive = true)
    (huniq : (d.filter (fun k => k.alg == alg && k.isActive)).length ≤ 1)
    (hfresh : ∀ k ∈ d, k.kid ≠ newKey.kid) :
    (storeRotate d newKey (rotateFindOld d alg)).filter
        (fun k => k.alg == alg && k.isActive) = [newKey] ∧
    (∀ k ∈ d, k.alg = alg → k.isActive = true →
      ∀ k2 ∈ storeRotate d newKey (rotateFindOld d alg), k2.kid = k.kid →
        k2.isActive = false) := by
  have hpnew : (newKey.alg == alg && newKey.isActive) = true := by
    simp [halg, hact]
  cases hfind : d.find? (fun k => k.alg == alg && k.isActive) with
  | none =>
    have hro : rotateFindOld d alg = none := by
      rw [rotateFindOld, hfind]; rfl
    have hnone : ∀ x ∈ d, ¬ ((x.alg == alg && x.isActive) = true) := by
      intro x hx
      have := List.find?_eq_none.mp hfind
      exact this x hx
    have hsr : storeRotate d newKey (rotateFindOld d alg) = d ++ [newKey] := by
      rw [storeRotate.eq_def, hro]
      exact storeSave_fresh d newKey hfresh
    constructor
    · rw [hsr, List.filter_append, List.filter_eq_nil_iff.mpr hnone]
      simp [hpnew]
    · intro k hk hkalg hkact
      exact absurd (by simp [hkalg, hkact]) (hnone k hk)
  | some k0 =>
    have hro : rotateFindOld d alg = some { k0 with isActive := false } := by
      rw [rotateFindOld, hfind]; rfl
    have hpk0 := List.find?_some hfind
    have hk0mem : k0 ∈ d := List.mem_of_find?_eq_some hfind
    have hfil : d.filter (fun k => k.alg == alg && k.isActive) = [k0] := by
      have hmem : k0 ∈ d.filter (fun k => k.alg == alg && k.isActive) :=
        List.mem_filter.2 ⟨hk0mem, hpk0⟩
      cases hf : d.filter (fun k => k.alg == alg && k.isActive) with
      | nil => rw [hf] at hmem; simp at hmem
      | cons a t =>
        rw [hf] at hmem huniq
        cases t with
        | cons b t2 => simp at huniq
        | nil =>
          simp only [List.mem_singleton] at hmem
          rw [hmem]
    have hkidmap : ∀ y : Key,
        (if y.kid == ({ k0 with isActive := false } : Key).kid
          then { y with isActive := false } else y).kid = y.kid := by
      intro y
      by_cases hc : (y.kid == ({ k0 with isActive := false } : Key).kid) = true
      · rw [if_pos hc]
      · rw [if_neg hc]
    have hdmfresh : ∀ y ∈ d.map (fun x =>
        if x.kid == ({ k0 with isActive := false } : Key).kid
          then { x with isActive := false } else x), y.kid ≠ newKey.kid := by
      intro y hy
      obtain ⟨x, hx, hxy⟩ := List.mem_map.1 hy
      rw [← hxy, hkidmap x]
      exact hfresh x hx
    have hdmfilter : (d.map (fun x =>
        if x.kid == ({ k0 with isActive := false } : Key).kid
          then { x with isActive := false } else x)).filter
        (fun k => k.alg == alg && k.isActive) = [] := by
      apply List.filter_eq_nil_iff.mpr
      intro y hy
      obtain ⟨x, hx, hxy⟩ := List.mem_map.1 hy
      by_cases hc : (x.kid == ({ k0 with isActive := false } : Key).kid) = true
      · rw [if_pos hc] at hxy
        rw [← hxy]
        simp
      · rw [if_neg hc] at hxy
        rw [← hxy]
        intro hpx
        have hxk0 : x = k0 := by
          have : x ∈ d.filter (fun k => k.alg == alg && k.isActive) :=
            List.mem_filter.2 ⟨hx, hpx⟩
          rw [hfil] at this
          simpa using this
        rw [hxk0] at hc
        exact hc (by simp)
    have hsr : storeRotate d newKey (rotateFindOld d alg) =
        d.map (fun x => if x.kid == ({ k0 with isActive := false } : Key).kid
          then { x with isActive := false } else x) ++ [newKey] := by
      rw [storeRotate.eq_def, hro]
      exact storeSave_fresh _ newKey hdmfresh
    constructor
    · rw [hsr, List.filter_append, hdmfilter]
      simp [hpnew]
    · intro k hk hkalg hkact k2 hk2 hkid
      have hkk0 : k = k0 := by
        have : k ∈ d.filter (fun k => k.alg == alg && k.isActive) :=
          List.mem_filter.2 ⟨hk, by simp [hkalg, hkact]⟩
        rw [hfil] at this
        simpa using this
      rw [hsr] at hk2
      rcases List.mem_append.1 hk2 with hk2d | hk2n
      · obtain ⟨y, hy, hyeq⟩ := List.mem_map.1 hk2d
        by_cases hc : (y.kid == ({ k0 with isActive := false } : Key).kid) = true
        · rw [if_pos hc] at hyeq
          rw [← hyeq]
        · rw [if_neg hc] at hyeq
          exfalso
          apply hc
          rw [hyeq, hkid, hkk0]
          simp
      · exfalso
        have hk2new : k2 = newKey := by simpa using hk2n
        apply hfresh k0 hk0mem
        rw [← hkk0, ← hkid, hk2new]

theorem Rotate_mock_ok (env : CryptoEnv) (o : RotateOracle) (alg : Alg)
    (s s' : KMState StoreData) (cfg : RotationConfig)
    (hpol : o.policyRes = .ok cfg)
    (hrot : Rotate mockStoreOps env o alg s = (none, s')) :
    ∃ enc, s'.store =
      storeRotate s.store (rotateNewKey alg cfg o enc) (rotateFindOld s.store alg) := by
  rw [Rotate, hpol] at hrot
  have hlist : mockStoreOps.list s.store = .ok s.store := rfl
  have hrotop : ∀ (nk : Key) (old : Option Key),
      mockStoreOps.rotate s.store nk old = .ok (storeRotate s.store nk old) :=
    fun _ _ => rfl
  simp only [hlist, hrotop] at hrot
  cases hgen : o.genRes with
  | error e =>
    simp only [hgen] at hrot
    exact absurd (congrArg Prod.fst hrot) (by simp)
  | ok priv =>
    simp only [hgen] at hrot
    cases hmar : o.marshalRes priv with
    | error e =>
      simp only [hmar] at hrot
      exact absurd (congrArg Prod.fst hrot) (by simp)
    | ok pb =>
      simp only [hmar] at hrot
      cases henc : o.encryptRes pb with
      | error e =>
        simp only [henc] at hrot
        exact absurd (congrArg Prod.fst hrot) (by simp)
      | ok enc =>
        simp only [henc] at hrot
        refine ⟨enc, ?_⟩
        rw [reloadCacheRun] at hrot
        set st1 := ({ s with store := storeRotate s.store (rotateNewKey alg cfg o enc) (rotateFindOld s.store alg) } : KMState StoreData) with hst1
        cases hrc : ReloadCache mockStoreOps env st1 with
        | error e =>
          simp only [hrc] at hrot
          exact absurd (congrArg Prod.fst hrot) (by simp)
        | ok s2 =>
          simp only [hrc] at hrot
          have hs2 : s2 = s' := congrArg Prod.snd hrot
          have hst := ReloadCache_store mockStoreOps env st1 s2 hrc
          rw [← hs2, hst, hst1]

/-- Counterexample to C2 as stated: a store already holding two active
"A" records (reachable through `MockStore.Save`, as the repository's own
reload tests do).  `Rotate` deactivates only the first one it finds, so
after a successful rotation two records for "A" are still active, not
exactly one. -/
theorem claim_C2_cex :
    Rotate mockStoreOps envTriv oracleA "A" stateTwoActive =
      (none, (Rotate mockStoreOps envTriv oracleA "A" stateTwoActive).2) ∧
    ((Rotate mockStoreOps envTriv oracleA "A" stateTwoActive).2.store.filter
      (fun k => k.alg == "A" && k.isActive)).length = 2 ∧
    (2 : Nat) ≠ 1 :=
  ⟨by decide, by decide, by decide⟩

/-- C2 (amended): for every store state holding at most one active record
for the algorithm, and a fresh generated key id, after a successful
`Rotate` exactly one stored record for the algorithm is active — the new
one — and any record that was active for the algorithm before is now
inactive. -/
theorem claim_C2_amended_rotate_unique :
    ∀ (env : CryptoEnv) (o : RotateOracle) (alg : Alg)
      (s s' : KMState StoreData) (cfg : RotationConfig),
      o.policyRes = .ok cfg →
      (s.store.filter (fun k => k.alg == alg && k.isActive)).length ≤ 1 →
      (∀ k ∈ s.store, k.kid ≠ o.newKid) →
      Rotate mockStoreOps env o alg s = (none, s') →
      ((s'.store.filter (fun k => k.alg == alg && k.isActive)).map
          (fun k => (k.kid, k.isActive)) = [(o.newKid, true)]) ∧
      (∀ k ∈ s.store, k.alg = alg → k.isActive = true →
        ∀ k2 ∈ s'.store, k2.kid = k.kid → k2.isActive = false) := by
  intro env o alg s s' cfg hpol huniq hfresh hrot
  obtain ⟨enc, hstore⟩ := Rotate_mock_ok env o alg s s' cfg hpol hrot
  have hfresh2 : ∀ k ∈ s.store, k.kid ≠ (rotateNewKey alg cfg o enc).kid := hfresh
  obtain ⟨hfil, hdeact⟩ := storeRotate_unique_active s.store alg
    (rotateNewKey alg cfg o enc) rfl rfl huniq hfresh2
  constructor
  · rw [hstore, hfil]
    rfl
  · intro k hk hkalg hkact k2 hk2 hkid
    rw [hstore] at hk2
    exact hdeact k hk hkalg hkact k2 hk2 hkid

/-- Witness for the amended C2 at a one-record store. -/
theorem claim_C2_amended_rotate_unique_witness :
    oracleFresh.policyRes = .ok { ttl := 7 } ∧
    (stateOneActive.store.filter (fun k => k.alg == "A" && k.isActive)).length ≤ 1 ∧
    (∀ k ∈ stateOneActive.store, k.kid ≠ oracleFresh.newKid) ∧
    Rotate mockStoreOps envTriv oracleFresh "A" stateOneActive =
      (none, (Rotate mockStoreOps envTriv oracleFresh "A" stateOneActive).2) ∧
    (((Rotate mockStoreOps envTriv oracleFresh "A" stateOneActive).2.store.filter
        (fun k => k.alg == "A" && k.isActive)).map (fun k => (k.kid, k.isActive)) =
      [(oracleFresh.newKid, true)]) :=
  ⟨rfl, by decide, by decide, by decide,
   (claim_C2_amended_rotate_unique envTriv oracleFresh "A" stateOneActive
      (Rotate mockStoreOps envTriv oracleFresh "A" stateOneActive).2 { ttl := 7 }
      rfl (by decide) (by decide) (by decide)).1⟩

/-- Counterexample to C7 as stated: with a rotation policy returning TTL
zero (the repository's tests build exactly such policies), `Rotate`
succeeds and the new record's `expires_at` equals `created_at`, which is
not strictly in the future at creation time. -/
theorem claim_C7_cex :
    Rotate mockStoreOps envTriv oracleZeroTTL "A" stateEmpty =
      (none, (Rotate mockStoreOps envTriv oracleZeroTTL "A" stateEmpty).2) ∧
    (Rotate mockStoreOps envTriv oracleZeroTTL "A" stateEmpty).2.store.map
      (fun k => (k.createdAt, k.expiresAt)) = [(100, some 100)] ∧
    ¬ ((100 : Int) < 100) :=
  ⟨by decide, by decide, by decide⟩

/-- C7 (amended): after every successful `Rotate`, the stored new record
has `expires_at = created_at + TTL` for the TTL the policy returned on
that call; when that TTL is positive, `expires_at` is strictly later than
the creation time. -/
theorem claim_C7_amended_expiry :
    ∀ (env : CryptoEnv) (o : RotateOracle) (alg : Alg)
      (s s' : KMState StoreData) (cfg : RotationConfig),
      o.policyRes = .ok cfg →
      Rotate mockStoreOps env o alg s = (none, s') →
      ∃ k, k ∈ s'.store ∧ k.kid = o.newKid ∧ k.createdAt = o.now ∧
        k.expiresAt = some (k.createdAt + cfg.ttl) ∧
        (0 < cfg.ttl → ∀ t, k.expiresAt = some t → k.createdAt < t) := by
  intro env o alg s s' cfg hpol hrot
  obtain ⟨enc, hstore⟩ := Rotate_mock_ok env o alg s s' cfg hpol hrot
  refine ⟨rotateNewKey alg cfg o enc, ?_, rfl, rfl, rfl, ?_⟩
  · rw [hstore]
    exact storeSave_mem _ _
  · intro httl t ht
    have h2 : some (o.now + cfg.ttl) = some t := by
      rw [← ht]
      rfl
    have h3 : t = o.now + cfg.ttl := by
      injection h2 with h4
      exact h4.symm
    rw [h3]
    show o.now < o.now + cfg.ttl
    omega

/-- Witness for the amended C7 with a positive TTL. -/
theorem claim_C7_amended_expiry_witness :
    oracleFresh.policyRes = .ok { ttl := 7 } ∧
    Rotate mockStoreOps envTriv oracleFresh "B" stateEmpty =
      (none, (Rotate mockStoreOps envTriv oracleFresh "B" stateEmpty).2) ∧
    ∃ k, k ∈ (Rotate mockStoreOps envTriv oracleFresh "B" stateEmpty).2.store ∧
      k.kid = oracleFresh.newKid ∧ k.createdAt = oracleFresh.now ∧
      k.expiresAt = some (k.createdAt + (7 : Int)) ∧
      (0 < (7 : Int) → ∀ t, k.expiresAt = some t → k.createdAt < t) :=
  ⟨rfl, by decide,
   claim_C7_amended_expiry envTriv oracleFresh "B" stateEmpty
     (Rotate mockStoreOps envTriv oracleFresh "B" stateEmpty).2 { ttl := 7 }
     rfl (by decide)⟩

theorem InitKeysT_shortcircuit {σ : Type} (ops : StoreOps σ) (env : CryptoEnv)
    (oracles : Nat → RotateOracle) :
    ∀ (pre : List Alg) (a : Alg) (post : List Alg) (s : KMState σ) (e : String)
      (s1 : KMState σ),
      (∀ x ∈ pre, (lookupA s.active x).isSome = true) →
      lookupA s.active a = none →
      Rotate ops env (oracles 0) a s = (some e, s1) →
      InitKeysT ops env oracles (pre ++ a :: post) s 0 =
        (.error ("failed to initialize key for alg " ++ a ++ ": " ++ e), [a])
  | [], a, post, s, e, s1 => by
    intro _ hmiss hrot
    show InitKeysT ops env oracles (a :: post) s 0 = _
    simp only [InitKeysT, hmiss, hrot]
  | x :: pre2, a, post, s, e, s1 => by
    intro hpre hmiss hrot
    obtain ⟨ck, hck⟩ := Option.isSome_iff_exists.mp (hpre x (by simp))
    show InitKeysT ops env oracles (x :: (pre2 ++ a :: post)) s 0 = _
    simp only [InitKeysT, hck]
    exact InitKeysT_shortcircuit ops env oracles pre2 a post s e s1
      (fun y hy => hpre y (by simp [hy])) hmiss hrot

theorem RotateExpiredT_trace {σ : Type} (ops : StoreOps σ) (env : CryptoEnv)
    (oracles : Nat → RotateOracle) (now : Int) :
    ∀ (snapshot : List (String × CachedKey)) (s : KMState σ) (i : Nat),
      (RotateExpiredT ops env oracles now snapshot s i).2.2 =
        (snapshot.filter (fun p => isExpired (keyOf p.2) now)).map (fun p => p.1)
  | [], _, _ => rfl
  | (alg, ck) :: rest, s, i => by
    by_cases hexp : isExpired (keyOf ck) now = true
    · rcases hR : Rotate ops env (oracles i) alg s with ⟨mo, s1⟩
      cases mo with
      | some e =>
        simp only [RotateExpiredT, if_pos hexp, hR, List.filter_cons, hexp, if_pos]
        exact congrArg (List.cons alg)
          (RotateExpiredT_trace ops env oracles now rest s1 (i + 1))
      | none =>
        simp only [RotateExpiredT, if_pos hexp, hR, List.filter_cons, hexp, if_pos]
        exact congrArg (List.cons alg)
          (RotateExpiredT_trace ops env oracles now rest s1 (i + 1))
    · have hexp2 : isExpired (keyOf ck) now = false := by
        simpa using hexp
      simp only [RotateExpiredT, if_neg hexp, List.filter_cons, hexp2, if_neg]
      exact RotateExpiredT_trace ops env oracles now rest s i

/-- C10: `InitKeys` short-circuits: when the first algorithm in the list
without an active key fails to rotate, `InitKeys` returns that error
wrapped, and the trace of attempted rotations is exactly that one
algorithm — nothing later in the list is attempted.  `RotateExpired`, by
contrast, attempts a rotation for every expired snapshot entry whatever
the outcomes of earlier ones, and reports success exactly when no
attempted rotation failed. -/
theorem claim_C10_initkeys_shortcircuit :
    (∀ (σ : Type) (ops : StoreOps σ) (env : CryptoEnv) (oracles : Nat → RotateOracle)
      (pre : List Alg) (a : Alg) (post : List Alg) (s : KMState σ) (e : String)
      (s1 : KMState σ),
      (∀ x ∈ pre, (lookupA s.active x).isSome = true) →
      lookupA s.active a = none →
      Rotate ops env (oracles 0) a s = (some e, s1) →
      InitKeys ops env oracles (pre ++ a :: post) s 0 =
        .error ("failed to initialize key for alg " ++ a ++ ": " ++ e) ∧
      (InitKeysT ops env oracles (pre ++ a :: post) s 0).2 = [a]) ∧
    (∀ (σ : Type) (ops : StoreOps σ) (env : CryptoEnv) (oracles : Nat → RotateOracle)
      (now : Int) (snapshot : List (String × CachedKey)) (s : KMState σ) (i : Nat),
      (RotateExpiredT ops env oracles now snapshot s i).2.2 =
        (snapshot.filter (fun p => isExpired (keyOf p.2) now)).map (fun p => p.1)) ∧
    (∀ (σ : Type) (ops : StoreOps σ) (env : CryptoEnv) (oracles : Nat → RotateOracle)
      (now : Int) (s : KMState σ),
      ((RotateExpired ops env oracles now s).1 = none ↔
        (RotateExpiredT ops env oracles now s.active s 0).2.1 = [])) := by
  refine ⟨?_, ?_, ?_⟩
  · intro σ ops env oracles pre a post s e s1 hpre hmiss hrot
    have h := InitKeysT_shortcircuit ops env oracles pre a post s e s1 hpre hmiss hrot
    constructor
    · rw [InitKeys, h]
    · rw [h]
  · intro σ ops env oracles now snapshot s i
    exact RotateExpiredT_trace ops env oracles now snapshot s i
  · intro σ ops env oracles now s
    rw [RotateExpired]
    by_cases h : (RotateExpiredT ops env oracles now s.active s 0).2.1.isEmpty = true
    · simp only [if_pos h]
      simp [List.isEmpty_iff.mp h]
    · simp only [if_neg h]
      constructor
      · intro hcon
        exact absurd hcon (by simp)
      · intro hnil
        rw [List.isEmpty_iff] at h
        exact absurd hnil h

/-- Witness for C10: a one-element tail after a failing first rotation. -/
theorem claim_C10_initkeys_shortcircuit_witness :
    (∀ x ∈ ([] : List Alg), (lookupA stateEmpty.active x).isSome = true) ∧
    lookupA stateEmpty.active "B" = none ∧
    Rotate mockStoreOps envTriv (oraclesFailPolicy 0) "B" stateEmpty =
      (some "policy error", stateEmpty) ∧
    (InitKeys mockStoreOps envTriv oraclesFailPolicy ([] ++ "B" :: ["C"]) stateEmpty 0 =
      .error ("failed to initialize key for alg " ++ "B" ++ ": " ++ "policy error") ∧
     (InitKeysT mockStoreOps envTriv oraclesFailPolicy ([] ++ "B" :: ["C"]) stateEmpty 0).2 =
      ["B"]) :=
  ⟨fun x hx => absurd hx (by simp), by decide, by decide,
   claim_C10_initkeys_shortcircuit.1 StoreData mockStoreOps envTriv oraclesFailPolicy
     [] "B" ["C"] stateEmpty "policy error" stateEmpty
     (fun x hx => absurd hx (by simp)) (by decide) (by decide)⟩

end KeysManager
